import Mathlib

/-!
Shallow embedding of the KOOM native address-resolution engine,
`koom-native/src/main/jni/src/memory_map.cpp`, for the `__LP64__` (64-bit)
build: `uintptr_t` values are natural numbers reduced modulo `2 ^ 64` exactly
where the C arithmetic wraps.  Process memory is a byte map `Nat → Nat`;
multi-byte reads are little-endian, matching the in-memory ELF layout the code
reads through raw pointer dereferences.  The companion header `memory_map.h`
is not part of the sources; the pieces of it the code needs (the `MapEntry`
record with its field defaults, the ordered entry container and its
containment lookup, and the `NeedIgnore` predicate) are modelled from the
specification and marked as such below.
-/

/-- Word width modulus of the modelled `__LP64__` build: `uintptr_t` wraps modulo `2 ^ 64`. -/
def MOD : Nat := 2 ^ 64

/-- Value of `PROT_READ` from `<sys/mman.h>`. -/
def PROT_READ : Nat := 1

/-- Value of `PROT_EXEC` from `<sys/mman.h>`. -/
def PROT_EXEC : Nat := 4

/-- Value of `SELFMAG` from `<elf.h>`: length of the ELF magic. -/
def SELFMAG : Nat := 4

/-- Little-endian value of the four ELF magic bytes `0x7f 'E' 'L' 'F'`. -/
def ELFMAG_LE : Nat := 0x464c457f

/-- Value of `PT_LOAD` from `<elf.h>`. -/
def PT_LOAD : Nat := 1

/-- Value of `PF_X` from `<elf.h>`. -/
def PF_X : Nat := 1

/-- Byte offset of `e_phoff` inside `Elf64_Ehdr`. -/
def e_phoff_off : Nat := 32

/-- Byte offset of `e_phnum` inside `Elf64_Ehdr`. -/
def e_phnum_off : Nat := 56

/-- Byte offset of `p_type` inside `Elf64_Phdr`. -/
def p_type_off : Nat := 0

/-- Byte offset of `p_flags` inside `Elf64_Phdr`. -/
def p_flags_off : Nat := 4

/-- Byte offset of `p_offset` inside `Elf64_Phdr`. -/
def p_offset_off : Nat := 8

/-- Byte offset of `p_vaddr` inside `Elf64_Phdr`. -/
def p_vaddr_off : Nat := 16

/-- `sizeof(Elf64_Phdr)`. -/
def phdrSize : Nat := 56

/-- `sizeof(ElfW(Half))`. -/
def sizeofHalf : Nat := 2

/-- `sizeof(ElfW(Off))`. -/
def sizeofOff : Nat := 8

/-- `sizeof(ElfW(Word))`. -/
def sizeofWord : Nat := 4

/-- `sizeof(ElfW(Addr))`. -/
def sizeofAddr : Nat := 8

/-- Wrapping `uintptr_t` addition. -/
def wadd (a b : Nat) : Nat := (a + b) % MOD

/-- Wrapping `uintptr_t` subtraction. -/
def wsub (a b : Nat) : Nat := (a + (MOD - b % MOD)) % MOD

/-- One record of the mapping table.  Modelled from the spec: the record layout
and the constructor defaults (`init = false`, `valid = false`,
`elf_start_offset = 0`) come from section 3 of the specification, because the
declaring header `memory_map.h` is not among the sources.  The field `end` of
the C struct is spelled `end_` (Lean keyword). -/
structure MapEntry where
  start : Nat
  end_ : Nat
  offset : Nat
  name : String
  flags : Nat
  load_bias : Nat
  init : Bool
  valid : Bool
  elf_start_offset : Nat
  deriving DecidableEq

/-- Placeholder entry used to totalise list indexing; never reached when the
index came from a successful lookup. -/
def dfltEntry : MapEntry :=
  { start := 0, end_ := 0, offset := 0, name := "", flags := 0, load_bias := 0,
    init := false, valid := false, elf_start_offset := 0 }

/-- Little-endian read of `n` bytes of process memory starting at `addr`
(addresses taken modulo `MOD`, bytes normalised to `0..255`). -/
def readBytes (mem : Nat → Nat) (addr : Nat) : Nat → Nat
  | 0 => 0
  | n + 1 => mem (addr % MOD) % 256 + 256 * readBytes mem ((addr + 1) % MOD) n

/-- Embeds `GetVal<T>` (memory_map.cpp lines 80-91): the guarded raw-memory
read.  `size` is `sizeof(T)`.  The C bound check `addr + sizeof(T) > entry->end`
is performed in wrapping `uintptr_t` arithmetic, hence the `% MOD` on the sum. -/
def GetVal (mem : Nat → Nat) (entry : MapEntry) (addr : Nat) (size : Nat) : Option Nat :=
  if entry.flags &&& PROT_READ = 0 ∨ addr < entry.start ∨ (addr + size) % MOD > entry.end_ then
    none
  else if addr &&& (size - 1) ≠ 0 then
    none
  else
    some (readBytes mem addr size)

/-- Embeds `ValidElf` (memory_map.cpp lines 93-101): overflow check via
`__builtin_add_overflow(addr, SELFMAG, &end)` then the guard `end >= entry->end`,
then `memcmp` of the four magic bytes. -/
def ValidElf (mem : Nat → Nat) (entry : MapEntry) : Bool :=
  if entry.start + SELFMAG ≥ MOD ∨ entry.start + SELFMAG ≥ entry.end_ then false
  else readBytes mem entry.start SELFMAG == ELFMAG_LE

/-- Embeds the program-header loop of `ReadLoadbias` (memory_map.cpp lines
114-133).  The fuel argument is `e_phnum`; `none` covers every way the C loop
leaves `load_bias` at `0` (a failed field read, or loop exhaustion with no
executable `PT_LOAD`), `some b` the single `return` that stores a bias. -/
def BiasScan (mem : Nat → Nat) (entry : MapEntry) : Nat → Nat → Option Nat
  | _, 0 => none
  | addr, n + 1 =>
    match GetVal mem entry ((addr + p_type_off) % MOD) sizeofWord with
    | none => none
    | some ptype =>
      match GetVal mem entry ((addr + p_flags_off) % MOD) sizeofWord with
      | none => none
      | some pflags =>
        match GetVal mem entry ((addr + p_offset_off) % MOD) sizeofOff with
        | none => none
        | some poff =>
          if ptype = PT_LOAD ∧ pflags &&& PF_X ≠ 0 then
            match GetVal mem entry ((addr + p_vaddr_off) % MOD) sizeofAddr with
            | none => none
            | some pvaddr => some (wsub pvaddr poff)
          else
            BiasScan mem entry ((addr + phdrSize) % MOD) n

/-- Outcome of the whole header walk of `ReadLoadbias` (memory_map.cpp lines
103-134): reads `e_phnum` and `e_phoff` through `GetVal`, then runs the
program-header scan.  `none` means the entry keeps load bias `0`. -/
def biasResult (mem : Nat → Nat) (entry : MapEntry) : Option Nat :=
  match GetVal mem entry ((entry.start + e_phnum_off) % MOD) sizeofHalf with
  | none => none
  | some phnum =>
    match GetVal mem entry ((entry.start + e_phoff_off) % MOD) sizeofOff with
    | none => none
    | some phoff => BiasScan mem entry ((entry.start + phoff) % MOD) phnum

/-- Embeds `ReadLoadbias` (memory_map.cpp lines 103-134) as a state
transformer: `load_bias` is first zeroed and then overwritten exactly when the
scan finds an executable `PT_LOAD` header. -/
def ReadLoadbias (mem : Nat → Nat) (entry : MapEntry) : MapEntry :=
  { entry with load_bias := (biasResult mem entry).getD 0 }

/-- Embeds `Init` (memory_map.cpp lines 136-145): lazy one-shot inspection.
Note the source order: `valid` is set to `true` as soon as `ValidElf` passes,
before `ReadLoadbias` runs. -/
def Init (mem : Nat → Nat) (entry : MapEntry) : MapEntry :=
  if entry.init then entry
  else
    let e := { entry with init := true }
    if ValidElf mem e then ReadLoadbias mem { e with valid := true } else e

/-- Embeds `ParseLine` (memory_map.cpp lines 44-78) from the point where
`sscanf` has produced the numeric fields and the 4-character permission
string: the flag computation from `permissions[0]` and `permissions[2]`, entry
construction, and the unreadable-entry special case of lines 71-76. -/
def ParseLine (start end_ offset : Nat) (perms : List Char) (name : String) : MapEntry :=
  let flags := (if perms.getD 0 ' ' = 'r' then PROT_READ else 0) |||
               (if perms.getD 2 ' ' = 'x' then PROT_EXEC else 0)
  let e : MapEntry :=
    { start := start, end_ := end_, offset := offset, name := name, flags := flags,
      load_bias := 0, init := false, valid := false, elf_start_offset := 0 }
  if flags &&& PROT_READ = 0 then { e with load_bias := 0, init := true, valid := false } else e

/-- The owning table, `MemoryMap` with its `entries_` set. -/
structure MemoryMap where
  entries : List MapEntry
  deriving DecidableEq

/-- Modelled from the spec: the entry container of `memory_map.h` keeps
entries ordered by `start` (section 4.1); insertion preserves that order. -/
def insertSorted (e : MapEntry) : List MapEntry → List MapEntry
  | [] => [e]
  | x :: xs => if e.start < x.start then e :: x :: xs else x :: insertSorted e xs

/-- Modelled from the spec: the duplicate test of the entry set — a line whose
range is already present (same `start`) is rejected in favour of the
first-seen entry (section 4.1), mirroring lines 161-166 of `ReadMaps`. -/
def insertEntry (table : List MapEntry) (e : MapEntry) : List MapEntry :=
  if table.any (fun x => x.start == e.start) then table else insertSorted e table

/-- Embeds the successful path of `MemoryMap::ReadMaps` (memory_map.cpp lines
147-170): `fresh` is the list of entries `ParseLine` produced from
`/proc/self/maps`, in file order; each is inserted unless its range is already
present, in which case the freshly parsed duplicate is deleted and the old
entry kept. -/
def MemoryMap.ReadMaps (st : MemoryMap) (fresh : List MapEntry) : MemoryMap :=
  ⟨fresh.foldl insertEntry st.entries⟩

/-- Modelled from the spec: `entries_.find(&pc_entry)` is a containment lookup
— the index of the entry whose `[start, end)` range contains `pc` (section
4.1: `find(address)` returns the entry whose half-open range contains the
address, or not-found). -/
def findPcIdx (table : List MapEntry) (pc : Nat) : Option Nat :=
  List.findIdx? (fun e => decide (e.start ≤ pc ∧ pc < e.end_)) table

/-- Embeds lines 182-189 of `CalculateRelPc`: look the pc up, on a miss
rebuild the table once (the result of `ReadMaps` is ignored), then the state
in which the second lookup runs. -/
def lookupState (fresh : List MapEntry) (st : MemoryMap) (pc : Nat) : MemoryMap :=
  if (findPcIdx st.entries pc).isSome then st else MemoryMap.ReadMaps st fresh

/-- `pc - entry->start + entry->load_bias` of memory_map.cpp line 210. -/
def relFallback (pc : Nat) (e : MapEntry) : Nat := wadd (wsub pc e.start) e.load_bias

/-- Embeds the body of `MemoryMap::CalculateRelPc` after a successful lookup
at index `i` (memory_map.cpp lines 191-212): lazy `Init` of the found entry
(written back into the table), then — only when the out-pointer is non-null
(`wantRel`) — the split read/execute correction through the immediately
preceding entry, else the plain-bias fallback.  Result: the table state after
the call, the returned entry pointer, and the value stored through `rel_pc`. -/
def CalcBody (mem : Nat → Nat) (st1 : MemoryMap) (pc : Nat) (wantRel : Bool) (i : Nat) :
    MemoryMap × Option MapEntry × Option Nat :=
  let entry := Init mem ((st1.entries[i]?).getD dfltEntry)
  let st2 : MemoryMap := ⟨st1.entries.set i entry⟩
  if wantRel then
    if entry.valid = false ∧ i ≠ 0 then
      let prev0 := (st2.entries[i - 1]?).getD dfltEntry
      if prev0.flags = PROT_READ ∧ prev0.offset < entry.offset ∧ prev0.name = entry.name then
        let prev := Init mem prev0
        let st3 : MemoryMap := ⟨st2.entries.set (i - 1) prev⟩
        if prev.valid = true then
          let entry2 := { entry with elf_start_offset := prev.offset }
          (⟨st3.entries.set i entry2⟩, some entry2,
            some (wadd (wadd (wsub pc entry2.start) entry2.offset) prev.load_bias))
        else (st3, some entry, some (relFallback pc entry))
      else (st2, some entry, some (relFallback pc entry))
    else (st2, some entry, some (relFallback pc entry))
  else (st2, some entry, none)

/-- Embeds `MemoryMap::CalculateRelPc` (memory_map.cpp lines 179-213).
`wantRel` models `rel_pc != nullptr`; the third component is the value stored
through the out-pointer (`none` when nothing is stored).  A null return (pc in
no entry even after the rebuild) is the `none` entry component. -/
def MemoryMap.CalculateRelPc (mem : Nat → Nat) (fresh : List MapEntry) (st : MemoryMap)
    (pc : Nat) (wantRel : Bool) : MemoryMap × Option MapEntry × Option Nat :=
  let st1 := lookupState fresh st pc
  match findPcIdx st1.entries pc with
  | none => (st1, none, none)
  | some i => CalcBody mem st1 pc wantRel i

/-- Result record of the external `dladdr` collaborator. -/
structure DlInfo where
  dli_fname : Option String
  dli_sname : Option String
  dli_saddr : Nat

/-- Hexadecimal rendering of a `uintptr_t`, lowercase, as `%` `PRIxPTR`. -/
def hexStr (n : Nat) : String := String.mk (Nat.toDigits 16 n)

/-- Zero-pad a rendered number on the left to width `w`. -/
def padZero (s : String) (w : Nat) : String :=
  String.mk (List.replicate (w - s.length) '0') ++ s

/-- The `"016" PRIxPTR` field of the frame line (64-bit build). -/
def hexPad16 (n : Nat) : String := padZero (hexStr n) 16

/-- The `%02zd` frame-index field. -/
def pad2 (n : Nat) : String := padZero (Nat.repr n) 2

/-- Embeds the frame loop of `MemoryMap::FormatBacktrace` (memory_map.cpp
lines 220-271).  `offs` and `symbol` are the loop-external locals `offset` and
`symbol` of lines 217-218, threaded between iterations exactly as in the
source (they are updated only when `dladdr` succeeds).  `needIgnoreF` is the
`MapEntry::NeedIgnore` predicate, modelled from the spec as a pluggable
predicate over the resolved entry (section 9) because its body lives in the
missing header.  The overall result is `none` when the loop dereferences the
null entry pointer at line 232 (`entry->NeedIgnore()` with `entry == nullptr`
is a crash: undefined behaviour, modelled as the absence of a result). -/
def FormatBTGo (mem : Nat → Nat) (fresh : List MapEntry) (dladdrF : Nat → Option DlInfo)
    (demangleF : String → Option String) (needIgnoreF : MapEntry → Bool) :
    MemoryMap → Nat → Nat → Option String → String → List Nat → Option String
  | _, _, _, _, acc, [] => some acc
  | st, cursor, offs, symbol, acc, pc :: rest =>
    let offs1 := match dladdrF pc with | some info => info.dli_saddr | none => offs
    let symbol1 := match dladdrF pc with | some info => info.dli_sname | none => symbol
    let res := MemoryMap.CalculateRelPc mem fresh st pc true
    match res.2.1 with
    | none => none
    | some entry =>
      if needIgnoreF entry then some acc
      else
        let rel_pc := (res.2.2).getD offs1
        let soname := entry.name
        let offsetBuf :=
          if entry.elf_start_offset ≠ 0 then
            " (offset 0x" ++ hexStr entry.elf_start_offset ++ ")"
          else ""
        let line :=
          match symbol1 with
          | some sym =>
            let nm := (demangleF sym).getD sym
            "          #" ++ pad2 cursor ++ "  pc " ++ hexPad16 rel_pc ++ "  " ++ soname ++
              offsetBuf ++ " (" ++ nm ++ "+" ++ Nat.repr (wsub pc offs1) ++ ")\n"
          | none =>
            "          #" ++ pad2 cursor ++ "  pc " ++ hexPad16 rel_pc ++ "  " ++ soname ++
              offsetBuf ++ "\n"
        FormatBTGo mem fresh dladdrF demangleF needIgnoreF res.1 (cursor + 1) offs1 symbol1
          (acc ++ line) rest

/-- Embeds `MemoryMap::FormatBacktrace` (memory_map.cpp lines 215-274): the
locals `offset = 0` and `symbol = nullptr` are initialised once, outside the
frame loop. -/
def MemoryMap.FormatBacktrace (mem : Nat → Nat) (fresh : List MapEntry)
    (dladdrF : Nat → Option DlInfo) (demangleF : String → Option String)
    (needIgnoreF : MapEntry → Bool) (st : MemoryMap) (frames : List Nat) : Option String :=
  FormatBTGo mem fresh dladdrF demangleF needIgnoreF st 0 0 none "" frames

/-! Concrete process images and mapping entries used by witnesses and
counterexamples. -/

/-- Byte map built from an association list; unmentioned addresses read 0. -/
def memAssoc (assocs : List (Nat × Nat)) : Nat → Nat :=
  fun a => (((assocs.find? (fun p => p.1 == a)).map (fun p => p.2)).getD 0)

/-- Readable 16-byte mapping based at address 0, for the `GetVal` wrap case. -/
def ec2 : MapEntry :=
  { start := 0, end_ := 16, offset := 0, name := "", flags := 1,
    load_bias := 0, init := false, valid := false, elf_start_offset := 0 }

/-- Readable 64-byte mapping based at address 0, for the `GetVal` witness. -/
def wEntryC2 : MapEntry :=
  { start := 0, end_ := 64, offset := 0, name := "", flags := 1,
    load_bias := 0, init := false, valid := false, elf_start_offset := 0 }

/-- Process image for the split-mapping scenario: a valid ELF header at
`0x10000` with one executable `PT_LOAD` header (`p_offset = p_vaddr = 0x1000`,
hence load bias `0`). -/
def memc3 : Nat → Nat := memAssoc
  [(0x10000, 0x7f), (0x10001, 0x45), (0x10002, 0x4c), (0x10003, 0x46),
   (0x10020, 0x40), (0x10038, 1), (0x10040, 1), (0x10044, 1),
   (0x10049, 0x10), (0x10051, 0x10)]

/-- Read-only header segment of the split module (offset 0). -/
def prevc3 : MapEntry :=
  { start := 0x10000, end_ := 0x11000, offset := 0, name := "libfoo.so", flags := 1,
    load_bias := 0, init := false, valid := false, elf_start_offset := 0 }

/-- Read-execute code segment of the split module (offset `0x1000`), not a
valid ELF image on its own. -/
def entc3 : MapEntry :=
  { start := 0x11000, end_ := 0x12000, offset := 0x1000, name := "libfoo.so", flags := 5,
    load_bias := 0, init := false, valid := false, elf_start_offset := 0 }

/-- Process image holding only the four ELF magic bytes at `0x20000`. -/
def memc4 : Nat → Nat := memAssoc
  [(0x20000, 0x7f), (0x20001, 0x45), (0x20002, 0x4c), (0x20003, 0x46)]

/-- Five-byte readable mapping whose contents pass the magic check but whose
header fields are out of range for every `GetVal` read. -/
def ec4 : MapEntry :=
  { start := 0x20000, end_ := 0x20005, offset := 0, name := "x", flags := 1,
    load_bias := 7, init := false, valid := false, elf_start_offset := 0 }

/-- Process image holding only the four ELF magic bytes at `0x100`. -/
def memc5 : Nat → Nat := memAssoc
  [(0x100, 0x7f), (0x101, 0x45), (0x102, 0x4c), (0x103, 0x46)]

/-- Mapping of exactly `SELFMAG` bytes whose contents are the ELF magic. -/
def ec5 : MapEntry :=
  { start := 0x100, end_ := 0x104, offset := 0, name := "m", flags := 1,
    load_bias := 0, init := false, valid := false, elf_start_offset := 0 }

/-- Entry present in the table before a rebuild. -/
def oldE : MapEntry :=
  { start := 0x1000, end_ := 0x2000, offset := 0, name := "old.so", flags := 1,
    load_bias := 0, init := true, valid := false, elf_start_offset := 0 }

/-- Entry of the fresh snapshot used to rebuild. -/
def newE : MapEntry :=
  { start := 0x3000, end_ := 0x4000, offset := 0, name := "new.so", flags := 1,
    load_bias := 0, init := false, valid := false, elf_start_offset := 0 }

/-- Already-inspected valid single-segment module with load bias `0x5000`. -/
def wEntryC9 : MapEntry :=
  { start := 0x1000, end_ := 0x2000, offset := 0, name := "w9.so", flags := 5,
    load_bias := 0x5000, init := true, valid := true, elf_start_offset := 0 }

/-- Already-inspected valid module for the null out-pointer witness. -/
def wEntryC10 : MapEntry :=
  { start := 0x1000, end_ := 0x2000, offset := 0, name := "w10.so", flags := 5,
    load_bias := 0x40, init := true, valid := true, elf_start_offset := 0 }

/-- Two already-inspected modules for the stale-symbol scenario. -/
def e0c8 : MapEntry :=
  { start := 0x1000, end_ := 0x2000, offset := 0, name := "a.so", flags := 5,
    load_bias := 0, init := true, valid := true, elf_start_offset := 0 }

/-- Second module of the stale-symbol scenario. -/
def e1c8 : MapEntry :=
  { start := 0x3000, end_ := 0x4000, offset := 0, name := "b.so", flags := 5,
    load_bias := 0, init := true, valid := true, elf_start_offset := 0 }

/-- External symbol lookup of the stale-symbol scenario: only the pc `0x1100`
(inside the first module) has a nearest symbol, `foo` at `0x1080`; the lookup
finds nothing for any other pc, in particular for `0x3100`. -/
def dlc8 : Nat → Option DlInfo :=
  fun pc => if pc == 0x1100 then some ⟨some "a.so", some "foo", 0x1080⟩ else none

/-! Helper lemmas shared by the claim theorems. -/

/-- `GetVal` reads only `flags`, `start` and `end_` of its entry. -/
theorem GetVal_congr (mem : Nat → Nat) (e1 e2 : MapEntry) (addr size : Nat)
    (h1 : e1.start = e2.start) (h2 : e1.end_ = e2.end_) (h3 : e1.flags = e2.flags) :
    GetVal mem e1 addr size = GetVal mem e2 addr size := by
  simp only [GetVal, h1, h2, h3]

/-- `BiasScan` reads only `flags`, `start` and `end_` of its entry. -/
theorem BiasScan_congr (mem : Nat → Nat) (e1 e2 : MapEntry)
    (h1 : e1.start = e2.start) (h2 : e1.end_ = e2.end_) (h3 : e1.flags = e2.flags) :
    ∀ n addr, BiasScan mem e1 addr n = BiasScan mem e2 addr n := by
  intro n
  induction n with
  | zero => intro addr; rfl
  | succ n ih =>
    intro addr
    simp only [BiasScan,
      show ∀ a s, GetVal mem e1 a s = GetVal mem e2 a s from
        fun a s => GetVal_congr mem e1 e2 a s h1 h2 h3, ih]

/-- `biasResult` reads only `flags`, `start` and `end_` of its entry. -/
theorem biasResult_congr (mem : Nat → Nat) (e1 e2 : MapEntry)
    (h1 : e1.start = e2.start) (h2 : e1.end_ = e2.end_) (h3 : e1.flags = e2.flags) :
    biasResult mem e1 = biasResult mem e2 := by
  simp only [biasResult, h1,
    show ∀ a s, GetVal mem e1 a s = GetVal mem e2 a s from
      fun a s => GetVal_congr mem e1 e2 a s h1 h2 h3,
    show ∀ n a, BiasScan mem e1 a n = BiasScan mem e2 a n from
      fun n a => BiasScan_congr mem e1 e2 h1 h2 h3 n a]

/-- `Init` never changes the `start` address. -/
theorem Init_start (mem : Nat → Nat) (e : MapEntry) : (Init mem e).start = e.start := by
  simp only [Init, ReadLoadbias]
  split
  · rfl
  · split <;> rfl

/-- `Init` never changes the `end_` address. -/
theorem Init_end (mem : Nat → Nat) (e : MapEntry) : (Init mem e).end_ = e.end_ := by
  simp only [Init, ReadLoadbias]
  split
  · rfl
  · split <;> rfl

/-- `Init` never changes the file offset. -/
theorem Init_offset (mem : Nat → Nat) (e : MapEntry) : (Init mem e).offset = e.offset := by
  simp only [Init, ReadLoadbias]
  split
  · rfl
  · split <;> rfl

/-- `Init` never changes the file name. -/
theorem Init_name (mem : Nat → Nat) (e : MapEntry) : (Init mem e).name = e.name := by
  simp only [Init, ReadLoadbias]
  split
  · rfl
  · split <;> rfl

/-- `Init` never changes `elf_start_offset`: only the split-mapping branch of
`CalculateRelPc` writes that field. -/
theorem Init_elf_start_offset (mem : Nat → Nat) (e : MapEntry) :
    (Init mem e).elf_start_offset = e.elf_start_offset := by
  simp only [Init, ReadLoadbias]
  split
  · rfl
  · split <;> rfl

/-- `Init` of an already-inspected entry is the identity. -/
theorem Init_of_init (mem : Nat → Nat) (e : MapEntry) (h : e.init = true) :
    Init mem e = e := by
  simp [Init, h]

/-- Membership in a sorted insertion. -/
theorem mem_insertSorted (a e : MapEntry) (l : List MapEntry) :
    a ∈ insertSorted e l ↔ a = e ∨ a ∈ l := by
  induction l with
  | nil => simp [insertSorted]
  | cons x xs ih =>
    simp only [insertSorted]
    split
    · simp [List.mem_cons]
    · simp only [List.mem_cons, ih]
      tauto

/-- `insertEntry` keeps every existing entry. -/
theorem mem_insertEntry_mono (l : List MapEntry) (x a : MapEntry) (h : a ∈ l) :
    a ∈ insertEntry l x := by
  unfold insertEntry
  split
  · exact h
  · exact (mem_insertSorted a x l).mpr (Or.inr h)

/-- Everything in `insertEntry l x` is `x` or was already in `l`. -/
theorem mem_insertEntry_cases (l : List MapEntry) (x a : MapEntry)
    (h : a ∈ insertEntry l x) : a = x ∨ a ∈ l := by
  unfold insertEntry at h
  split at h
  · exact Or.inr h
  · exact (mem_insertSorted a x l).mp h

/-- The fold of `insertEntry` keeps every existing entry. -/
theorem mem_foldl_insertEntry_mono (fresh : List MapEntry) :
    ∀ l a, a ∈ l → a ∈ fresh.foldl insertEntry l := by
  induction fresh with
  | nil => intro l a h; exact h
  | cons f fs ih => intro l a h; exact ih _ a (mem_insertEntry_mono l f a h)

/-- Everything the fold of `insertEntry` produces is old or freshly parsed. -/
theorem mem_foldl_insertEntry_cases (fresh : List MapEntry) :
    ∀ l a, a ∈ fresh.foldl insertEntry l → a ∈ l ∨ a ∈ fresh := by
  induction fresh with
  | nil => intro l a h; exact Or.inl h
  | cons f fs ih =>
    intro l a h
    rcases ih _ a h with h1 | h1
    · rcases mem_insertEntry_cases l f a h1 with h2 | h2
      · exact Or.inr (by simp [h2])
      · exact Or.inl h2
    · exact Or.inr (List.mem_cons_of_mem f h1)

/-- MOD is positive. -/
theorem MOD_pos : 0 < MOD := by decide

/-- Wrapping `pc - s + b` agrees with the mathematical value when `s ≤ pc < MOD`. -/
theorem wadd_wsub_eq (pc s b : Nat) (hs : s ≤ pc) (hpc : pc < MOD) :
    wadd (wsub pc s) b = (pc - s + b) % MOD := by
  unfold wadd wsub
  rw [Nat.mod_eq_of_lt (lt_of_le_of_lt hs hpc)]
  have hM : 0 < MOD := MOD_pos
  have h2 : pc + (MOD - s) = (pc - s) + MOD := by omega
  rw [h2, Nat.add_mod_right, Nat.mod_add_mod]

/-- Wrapping `pc - s + off + b` agrees with the mathematical value when
`s ≤ pc < MOD`. -/
theorem wadd_wadd_wsub_eq (pc s off b : Nat) (hs : s ≤ pc) (hpc : pc < MOD) :
    wadd (wadd (wsub pc s) off) b = (pc - s + off + b) % MOD := by
  rw [show wadd (wsub pc s) off = (pc - s + off) % MOD from wadd_wsub_eq pc s off hs hpc]
  unfold wadd
  rw [Nat.mod_add_mod]

/-- A hit in the first lookup means no rebuild happens. -/
theorem lookupState_hit (fresh : List MapEntry) (st : MemoryMap) (pc : Nat) (i : Nat)
    (hf : findPcIdx st.entries pc = some i) : lookupState fresh st pc = st := by
  simp [lookupState, hf]

/-! Claim theorems. -/

/-- C1: evidence of the code bug.  For a frame address that no mapping
contains even after the rebuild, `CalculateRelPc` returns a null entry
pointer, and `FormatBacktrace` then crashes (dereferences the null pointer at
`entry->NeedIgnore()`, modelled as the absence of a result) instead of
emitting a degraded unknown-module line and continuing — the null checks a
few lines later in the same function show the degraded path was intended. -/
theorem C1_missing_mapping_crash :
    (MemoryMap.CalculateRelPc (fun _ => 0) [] ⟨[]⟩ 0x1000 true).2.1 = none ∧
      MemoryMap.FormatBacktrace (fun _ => 0) [] (fun _ => none) (fun _ => none) (fun _ => false)
        ⟨[]⟩ [0x1000] = none := by
  decide

/-- C2: counterexample to the claimed overflow safety.  The bound check of
`GetVal` computes `addr + sizeof(T)` in wrapping `uintptr_t` arithmetic, so an
8-byte read at address `2^64 - 8` passes every check against the readable
entry `[0, 16)` and a value is returned, although the address lies far outside
the entry. -/
theorem C2_overflow_wrap_counterexample :
    (GetVal (fun _ => 0) ec2 (MOD - 8) 8).isSome = true ∧ ec2.end_ < MOD - 8 := by
  decide

/-- C2 (amended): when `addr + sizeof(T)` does not wrap, `GetVal` returns a
value exactly when the entry has the read bit, every byte of
`[addr, addr + size)` lies within `[start, end)`, and `addr` is naturally
aligned; the bound check itself is performed on the wrapped sum
`(addr + size) mod 2^64`, so it is not overflow-safe (see the
counterexample). -/
theorem C2_getval_checks (mem : Nat → Nat) (e : MapEntry) (addr size : Nat)
    (hnw : addr + size < MOD) :
    (GetVal mem e addr size).isSome = true ↔
      (e.flags &&& PROT_READ ≠ 0 ∧ e.start ≤ addr ∧ addr + size ≤ e.end_ ∧
        addr &&& (size - 1) = 0) := by
  unfold GetVal
  rw [Nat.mod_eq_of_lt hnw]
  constructor
  · intro h
    split_ifs at h with h1 h2
    · simp at h
    · simp at h
    · push_neg at h1
      refine ⟨h1.1, by omega, by omega, by simpa using h2⟩
  · intro h
    rw [if_neg (by push_neg; exact ⟨h.1, by omega, by omega⟩), if_neg (by simpa using h.2.2.2)]
    rfl

/-- C2 witness: the amended characterization applied to a concrete aligned
in-bounds read. -/
theorem C2_getval_checks_witness :
    8 + 4 < MOD ∧
      ((GetVal (fun _ => 0) wEntryC2 8 4).isSome = true ↔
        (wEntryC2.flags &&& PROT_READ ≠ 0 ∧ wEntryC2.start ≤ 8 ∧ 8 + 4 ≤ wEntryC2.end_ ∧
          8 &&& (4 - 1) = 0)) :=
  ⟨by decide, C2_getval_checks (fun _ => 0) wEntryC2 8 4 (by decide)⟩

/-- C5: counterexample to the claimed admission of a 4-byte entry.  `ValidElf`
rejects the read already when `start + SELFMAG` equals `end` (the guard is
`end >= entry->end`), so a mapping of exactly four bytes whose contents are
the ELF magic is reported invalid. -/
theorem C5_exact_four_byte_counterexample :
    ValidElf memc5 ec5 = false ∧ readBytes memc5 ec5.start SELFMAG = ELFMAG_LE ∧
      ec5.end_ = ec5.start + SELFMAG := by
  decide

/-- C5 (amended): `ValidElf` returns true iff `start + 4` does not overflow,
`start + 4` is strictly below `end` (so the entry must span more than four
bytes; an entry with `end = start + 4` is rejected), and the first four bytes
at `start` are the ELF magic. -/
theorem C5_validelf_characterization (mem : Nat → Nat) (e : MapEntry) :
    ValidElf mem e = true ↔
      (e.start + SELFMAG < MOD ∧ e.start + SELFMAG < e.end_ ∧
        readBytes mem e.start SELFMAG = ELFMAG_LE) := by
  unfold ValidElf
  split_ifs with h
  · constructor
    · intro hc; cases hc
    · intro hc; omega
  · push_neg at h
    rw [beq_iff_eq]
    constructor
    · intro hc; exact ⟨h.1, h.2, hc⟩
    · intro hc; exact hc.2.2

/-- C4: counterexample to the claimed reset of `valid`.  For a readable
mapping whose first four bytes are the ELF magic but whose header fields are
all unreadable (the entry is only five bytes long), the program-header walk
fails, yet after `Init` the entry has `valid = true` with `load_bias = 0`:
`Init` sets `valid` from the magic check alone, before `ReadLoadbias` runs. -/
theorem C4_valid_despite_failed_scan :
    (Init memc4 ec4).valid = true ∧
      biasResult memc4 { ec4 with init := true, valid := true } = none ∧
      (Init memc4 ec4).load_bias = 0 := by
  decide

/-- C4 (amended): for an uninspected entry, inspection leaves `load_bias = 0`
whenever the header walk finds no executable `PT_LOAD` or a required field
read fails, and it equals the scanned `p_vaddr - p_offset` of the first
executable `PT_LOAD` otherwise; but `valid` is true iff the ELF magic check
passes — the outcome of the program-header scan never influences `valid`. -/
theorem C4_init_loadbias (mem : Nat → Nat) (e : MapEntry)
    (h : e.init = false) (hv : e.valid = false) :
    ((Init mem e).valid = ValidElf mem e) ∧
      (biasResult mem e = none →
        (Init mem e).load_bias = if ValidElf mem e then 0 else e.load_bias) ∧
      (∀ b, biasResult mem e = some b →
        (Init mem e).load_bias = if ValidElf mem e then b else e.load_bias) := by
  have hBR : biasResult mem { e with init := true, valid := true } = biasResult mem e :=
    biasResult_congr mem _ e rfl rfl rfl
  have hIE : Init mem e =
      if ValidElf mem e = true
        then { e with init := true, valid := true, load_bias := (biasResult mem e).getD 0 }
        else { e with init := true } := by
    simp only [Init, ReadLoadbias]
    rw [if_neg (by simp [h])]
    rw [hBR]
    rw [show ValidElf mem { e with init := true } = ValidElf mem e from rfl]
  rw [hIE]
  by_cases hE : ValidElf mem e = true
  · rw [if_pos hE]
    refine ⟨by simp [hE], ?_, ?_⟩
    · intro hb; simp [hb, hE]
    · intro b hb; simp [hb, hE]
  · rw [if_neg hE]
    simp only [Bool.not_eq_true] at hE
    refine ⟨by simp [hv, hE], ?_, ?_⟩
    · intro _; simp [hE]
    · intro b _; simp [hE]

/-- C4 witness: the amended statement applied to the five-byte magic-only
entry, whose hypotheses hold by computation. -/
theorem C4_init_loadbias_witness :
    ec4.init = false ∧ ec4.valid = false ∧
      (((Init memc4 ec4).valid = ValidElf memc4 ec4) ∧
        (biasResult memc4 ec4 = none →
          (Init memc4 ec4).load_bias = if ValidElf memc4 ec4 then 0 else ec4.load_bias) ∧
        (∀ b, biasResult memc4 ec4 = some b →
          (Init memc4 ec4).load_bias = if ValidElf memc4 ec4 then b else ec4.load_bias)) :=
  ⟨rfl, rfl, C4_init_loadbias memc4 ec4 rfl rfl⟩

/-- C6: counterexample to the claimed wholesale replacement.  Rebuilding a
table that holds `oldE` from a fresh snapshot that contains only `newE` keeps
`oldE`: `ReadMaps` only inserts lines whose range is not already present and
never removes anything, so an entry from before the rebuild survives although
the fresh snapshot does not contain it. -/
theorem C6_stale_entry_counterexample :
    (MemoryMap.ReadMaps ⟨[oldE]⟩ [newE]).entries = [oldE, newE] ∧ oldE ∉ [newE] := by
  decide

/-- C6 (amended): a rebuild merges the freshly parsed snapshot into the
existing table instead of replacing it: every entry present before the rebuild
is still present afterwards, and every entry present afterwards is either an
old entry or one of the freshly parsed ones. -/
theorem C6_rebuild_merges (st : MemoryMap) (fresh : List MapEntry) :
    (∀ e, e ∈ st.entries → e ∈ (MemoryMap.ReadMaps st fresh).entries) ∧
      (∀ e, e ∈ (MemoryMap.ReadMaps st fresh).entries → e ∈ st.entries ∨ e ∈ fresh) :=
  ⟨fun e h => mem_foldl_insertEntry_mono fresh st.entries e h,
    fun e h => mem_foldl_insertEntry_cases fresh st.entries e h⟩

/-- C6 witness: the merged table keeps the concrete pre-rebuild entry. -/
theorem C6_rebuild_merges_witness :
    oldE ∈ (MemoryMap.ReadMaps ⟨[oldE]⟩ [newE]).entries :=
  (C6_rebuild_merges ⟨[oldE]⟩ [newE]).1 oldE (by decide)

/-- C7: a mapping line whose permission string lacks the read bit produces an
entry that is already marked inspected (`init = true`), invalid
(`valid = false`) and unbiased (`load_bias = 0`), and `Init` never inspects it
(it is the identity on it for every process memory, so `ValidElf` and
`ReadLoadbias` are never consulted for it). -/
theorem C7_unreadable_entry (s en off : Nat) (perms : List Char) (nm : String)
    (h : perms.getD 0 ' ' ≠ 'r') :
    (ParseLine s en off perms nm).init = true ∧
      (ParseLine s en off perms nm).valid = false ∧
      (ParseLine s en off perms nm).load_bias = 0 ∧
      ∀ mem, Init mem (ParseLine s en off perms nm) = ParseLine s en off perms nm := by
  unfold ParseLine
  rw [if_neg h]
  by_cases hx : perms.getD 2 ' ' = 'x'
  · rw [if_pos hx]
    rw [if_pos (by decide : (0 ||| PROT_EXEC) &&& PROT_READ = 0)]
    refine ⟨rfl, rfl, rfl, ?_⟩
    intro mem
    exact Init_of_init mem _ rfl
  · rw [if_neg hx]
    rw [if_pos (by decide : ((0 : Nat) ||| 0) &&& PROT_READ = 0)]
    refine ⟨rfl, rfl, rfl, ?_⟩
    intro mem
    exact Init_of_init mem _ rfl

/-- C7 witness: a concrete execute-only permission string. -/
theorem C7_unreadable_entry_witness :
    (['-', '-', 'x', 'p'].getD 0 ' ' ≠ 'r') ∧
      ((ParseLine 1 2 3 ['-', '-', 'x', 'p'] "z").init = true ∧
        (ParseLine 1 2 3 ['-', '-', 'x', 'p'] "z").valid = false ∧
        (ParseLine 1 2 3 ['-', '-', 'x', 'p'] "z").load_bias = 0 ∧
        ∀ mem, Init mem (ParseLine 1 2 3 ['-', '-', 'x', 'p'] "z") =
          ParseLine 1 2 3 ['-', '-', 'x', 'p'] "z") :=
  ⟨by decide, C7_unreadable_entry 1 2 3 ['-', '-', 'x', 'p'] "z" (by decide)⟩

/-- A hit in the first lookup reduces `CalculateRelPc` to its found-entry body. -/
theorem CalculateRelPc_found (mem : Nat → Nat) (fresh : List MapEntry) (st : MemoryMap)
    (pc : Nat) (w : Bool) (i : Nat) (hf : findPcIdx st.entries pc = some i) :
    MemoryMap.CalculateRelPc mem fresh st pc w = CalcBody mem st pc w i := by
  simp only [MemoryMap.CalculateRelPc, lookupState_hit fresh st pc i hf, hf]

/-- C3: for a pc resolving to an entry that does not inspect as a valid ELF,
whose immediately preceding entry has exactly the read-only flags, a strictly
smaller file offset and the same file name, and inspects as a valid ELF, the
resolution returns the entry with `elf_start_offset` set to the preceding
offset and stores
`relative_pc = pc - entry.start + entry.offset + preceding.load_bias`. -/
theorem C3_split_mapping (mem : Nat → Nat) (fresh : List MapEntry) (st : MemoryMap)
    (pc : Nat) (i : Nat) (e prev0 : MapEntry)
    (hf : findPcIdx st.entries pc = some i)
    (he : st.entries[i]? = some e)
    (hi : i ≠ 0)
    (hprev : st.entries[i - 1]? = some prev0)
    (hinv : (Init mem e).valid = false)
    (hpf : prev0.flags = PROT_READ)
    (hpo : prev0.offset < e.offset)
    (hpn : prev0.name = e.name)
    (hpv : (Init mem prev0).valid = true)
    (hs : e.start ≤ pc) (hpc : pc < MOD) :
    (MemoryMap.CalculateRelPc mem fresh st pc true).2.1 =
        some { Init mem e with elf_start_offset := prev0.offset } ∧
      (MemoryMap.CalculateRelPc mem fresh st pc true).2.2 =
        some ((pc - e.start + e.offset + (Init mem prev0).load_bias) % MOD) := by
  rw [CalculateRelPc_found mem fresh st pc true i hf]
  simp only [CalcBody, he, Option.getD_some]
  rw [if_pos trivial]
  rw [if_pos (⟨hinv, hi⟩ : (Init mem e).valid = false ∧ i ≠ 0)]
  rw [List.getElem?_set_ne (by omega : i ≠ i - 1)]
  rw [hprev]
  simp only [Option.getD_some]
  rw [if_pos (⟨hpf, by rw [Init_offset]; exact hpo, by rw [Init_name]; exact hpn⟩ :
    prev0.flags = PROT_READ ∧ prev0.offset < (Init mem e).offset ∧
      prev0.name = (Init mem e).name)]
  rw [if_pos hpv]
  simp only [Init_offset, Init_start]
  refine ⟨trivial, ?_⟩
  rw [wadd_wadd_wsub_eq pc e.start e.offset ((Init mem prev0).load_bias) hs hpc]

/-- C3 witness: the synthetic split module — read-only header segment at
offset 0 holding a valid ELF with one executable `PT_LOAD`
(`p_vaddr = p_offset = 0x1000`, so bias 0), followed by a read-execute
segment at offset `0x1000`; a pc inside the second segment resolves through
the first one. -/
theorem C3_split_mapping_witness :
    (MemoryMap.CalculateRelPc memc3 [] ⟨[prevc3, entc3]⟩ 0x11500 true).2.1 =
        some { Init memc3 entc3 with elf_start_offset := prevc3.offset } ∧
      (MemoryMap.CalculateRelPc memc3 [] ⟨[prevc3, entc3]⟩ 0x11500 true).2.2 =
        some ((0x11500 - entc3.start + entc3.offset + (Init memc3 prevc3).load_bias) % MOD) :=
  C3_split_mapping memc3 [] ⟨[prevc3, entc3]⟩ 0x11500 1 entc3 prevc3
    (by decide) (by decide) (by decide) (by decide) (by decide) (by decide)
    (by decide) (by decide) (by decide) (by decide) (by decide)

/-- C9: a pc resolving to an already-valid entry yields
`relative_pc = pc - entry.start + entry.load_bias` and returns the entry
unchanged. -/
theorem C9_valid_entry_relpc (mem : Nat → Nat) (fresh : List MapEntry) (st : MemoryMap)
    (pc : Nat) (i : Nat) (e : MapEntry)
    (hf : findPcIdx st.entries pc = some i)
    (he : st.entries[i]? = some e)
    (hinit : e.init = true) (hvalid : e.valid = true)
    (hs : e.start ≤ pc) (hpc : pc < MOD) :
    (MemoryMap.CalculateRelPc mem fresh st pc true).2.1 = some e ∧
      (MemoryMap.CalculateRelPc mem fresh st pc true).2.2 =
        some ((pc - e.start + e.load_bias) % MOD) := by
  rw [CalculateRelPc_found mem fresh st pc true i hf]
  simp only [CalcBody, he, Option.getD_some, Init_of_init mem e hinit]
  rw [if_pos trivial]
  rw [if_neg (by simp [hvalid] : ¬(e.valid = false ∧ i ≠ 0))]
  refine ⟨rfl, ?_⟩
  show some (relFallback pc e) = _
  rw [show relFallback pc e = wadd (wsub pc e.start) e.load_bias from rfl,
    wadd_wsub_eq pc e.start e.load_bias hs hpc]

/-- C9 witness: a single already-inspected module with bias `0x5000`; the pc
`start + 0x234` resolves to relative pc `0x234 + 0x5000`. -/
theorem C9_valid_entry_relpc_witness :
    (MemoryMap.CalculateRelPc (fun _ => 0) [] ⟨[wEntryC9]⟩ 0x1234 true).2.1 = some wEntryC9 ∧
      (MemoryMap.CalculateRelPc (fun _ => 0) [] ⟨[wEntryC9]⟩ 0x1234 true).2.2 =
        some ((0x1234 - wEntryC9.start + wEntryC9.load_bias) % MOD) :=
  C9_valid_entry_relpc (fun _ => 0) [] ⟨[wEntryC9]⟩ 0x1234 0 wEntryC9
    (by decide) (by decide) (by decide) (by decide) (by decide) (by decide)

/-- C10: calling `CalculateRelPc` with a null out-pointer still performs the
lookup (with its single rebuild on a miss, `lookupState`) and the lazy `Init`
of the found entry, writing the inspected entry back into its slot — but it
never runs the split-mapping correction: nothing is stored through the
out-pointer, only slot `i` of the table changes (the preceding entry is not
inspected), and the found entry keeps its `elf_start_offset` unchanged. -/
theorem C10_null_out_pointer (mem : Nat → Nat) (fresh : List MapEntry) (st : MemoryMap)
    (pc : Nat) :
    (findPcIdx (lookupState fresh st pc).entries pc = none →
        MemoryMap.CalculateRelPc mem fresh st pc false = (lookupState fresh st pc, none, none)) ∧
      (∀ i e, findPcIdx (lookupState fresh st pc).entries pc = some i →
        (lookupState fresh st pc).entries[i]? = some e →
        MemoryMap.CalculateRelPc mem fresh st pc false =
            (⟨(lookupState fresh st pc).entries.set i (Init mem e)⟩, some (Init mem e), none) ∧
          (Init mem e).elf_start_offset = e.elf_start_offset) := by
  constructor
  · intro hn
    simp only [MemoryMap.CalculateRelPc, hn]
  · intro i e hf he
    refine ⟨?_, Init_elf_start_offset mem e⟩
    simp only [MemoryMap.CalculateRelPc, hf, CalcBody, he, Option.getD_some]
    rw [if_neg Bool.false_ne_true]

/-- C10 witness: the null out-pointer call on a one-entry table inspects the
entry in place, returns it, stores nothing, and leaves `elf_start_offset`
untouched. -/
theorem C10_null_out_pointer_witness :
    MemoryMap.CalculateRelPc (fun _ => 0) [] ⟨[wEntryC10]⟩ 0x1234 false =
        (⟨(lookupState [] ⟨[wEntryC10]⟩ 0x1234).entries.set 0 (Init (fun _ => 0) wEntryC10)⟩,
          some (Init (fun _ => 0) wEntryC10), none) ∧
      (Init (fun _ => 0) wEntryC10).elf_start_offset = wEntryC10.elf_start_offset :=
  (C10_null_out_pointer (fun _ => 0) [] ⟨[wEntryC10]⟩ 0x1234).2 0 wEntryC10
    (by decide) (by decide)

/-- C8: evidence of the code bug.  The locals `offset` and `symbol` live
outside the frame loop and are not reset when `dladdr` fails, so a frame with
no symbol match (`dlc8 0x3100 = none`) is still rendered with the previous
frame symbol `foo` — and with a bogus offset computed against the previous
frame symbol start (`0x3100 - 0x1080 = 8320`) — instead of being rendered
without a symbol suffix. -/
theorem C8_stale_symbol_reuse :
    MemoryMap.FormatBacktrace (fun _ => 0) [] dlc8 (fun _ => none) (fun _ => false)
        ⟨[e0c8, e1c8]⟩ [0x1100, 0x3100] =
      some ("          #00  pc 0000000000000100  a.so (foo+128)\n" ++
        "          #01  pc 0000000000000100  b.so (foo+8320)\n") ∧
      dlc8 0x3100 = none := by
  constructor
  · rfl
  · rfl
